import Mathlib

/-!
# Verification of the google-geotag location matcher

A shallow embedding of `src/google-geotag.py` in Lean 4, together with
theorems settling the specification's claims about it.

Modelling conventions:
* Python `str` values are modelled as `List Char` (`PyStr`); the helper
  `strL` converts a Lean string literal to this representation.
* Python `float` values are modelled as exact rationals (`ℚ`); binary
  floating-point rounding is not modelled.
* Naive `datetime` values are interpreted as UTC and represented by their
  epoch seconds (a rational, to accommodate `%f` microsecond fractions).
  `datetime + timedelta(minutes=m)` then adds `60 * m` seconds and
  `.timestamp()` is the identity, which is exact under this interpretation.
* JSON values decoded by `json.load` are modelled by the inductive `Json`.
* Uncaught Python exceptions are modelled by `Except PyErr`; the error
  constructor names the Python exception class that the interpreter would
  raise at that point.
-/

namespace GoogleGeotag

/-- Python strings, modelled as lists of characters. -/
abbrev PyStr := List Char

/-- Convert a Lean string literal into the `PyStr` representation. -/
def strL (s : String) : PyStr := s.data

/-- `str.split(sep)` for a single-character separator, as in the Python
`str.split` semantics: `"".split(c) = [""]`, separators between every pair
of adjacent groups. -/
def splitOnChar (c : Char) : PyStr → List PyStr
  | [] => [[]]
  | x :: xs =>
    match splitOnChar c xs with
    | [] => [[x]]
    | g :: gs => if x = c then [] :: g :: gs else (x :: g) :: gs

/-- All characters are ASCII decimal digits. -/
def allDigits (s : PyStr) : Bool := s.all Char.isDigit

/-- Numeric value of a digit string (most significant digit first). -/
def digitsVal (s : PyStr) : ℕ := s.foldl (fun acc c => 10 * acc + (c.toNat - 48)) 0

/-- Parse a non-empty all-digit string to a natural number. -/
def toNatStrict (s : PyStr) : Option ℕ :=
  if !s.isEmpty && allDigits s then some (digitsVal s) else none

/-- A digit field of `strptime`: between `lo` and `hi` digits. -/
def natField (s : PyStr) (lo hi : ℕ) : Option ℕ :=
  if lo ≤ s.length && s.length ≤ hi && allDigits s then some (digitsVal s) else none

/-- Whitespace characters stripped by Python's `int()`/`float()` conversions. -/
def isPySpace (c : Char) : Bool := c = ' ' || c = '\t' || c = '\n' || c = '\r'

/-- Python's `str.strip()` as applied implicitly by `int()` and `float()`. -/
def stripWS (s : PyStr) : PyStr :=
  ((s.dropWhile isPySpace).reverse.dropWhile isPySpace).reverse

/-- Substring containment, the meaning of Python's `needle in haystack`
for strings. -/
def isInfixL (needle hay : PyStr) : Bool :=
  match hay with
  | [] => needle.isEmpty
  | _ :: t => needle.isPrefixOf hay || isInfixL needle t

/-- `int(s)` on a Python string: optional surrounding whitespace, optional
sign, then decimal digits; anything else raises `ValueError` (`none`). -/
def pyIntOfStr (s : PyStr) : Option ℤ :=
  match stripWS s with
  | '-' :: r => (toNatStrict r).map (fun n => -(n : ℤ))
  | '+' :: r => (toNatStrict r).map (fun n => (n : ℤ))
  | r => (toNatStrict r).map (fun n => (n : ℤ))

/-- `float(s)` on a Python string, restricted to plain decimal notation
(optional sign, integer part, optional fractional part); scientific
notation and the `inf`/`nan` spellings are outside the inputs this program
receives and are not modelled.  `none` models `ValueError`. -/
def pyFloatOfStr (s : PyStr) : Option ℚ :=
  let t := stripWS s
  let sgn : ℚ := if t.head? = some '-' then -1 else 1
  let t2 := if t.head? = some '-' || t.head? = some '+' then t.tail else t
  match splitOnChar '.' t2 with
  | [ip] => (toNatStrict ip).map (fun n => sgn * n)
  | [ip, fp] =>
    if ip.isEmpty && fp.isEmpty then none
    else if allDigits ip && allDigits fp then
      some (sgn * ((digitsVal ip : ℚ) + (digitsVal fp : ℚ) / 10 ^ fp.length))
    else none
  | _ => none

/-- Truncation of a rational toward zero, the semantics of Python's
`int(x)` on a float. -/
def truncRat (q : ℚ) : ℤ := if q < 0 then -(Rat.floor (-q)) else Rat.floor q

/-- Python's `abs(x)` on a float. -/
def pyAbs (q : ℚ) : ℚ := if q < 0 then -q else q

theorem pyAbs_eq_abs (q : ℚ) : pyAbs q = |q| := by
  unfold pyAbs
  by_cases h : q < 0
  · rw [if_pos h, abs_of_neg h]
  · rw [if_neg h, abs_of_nonneg (not_lt.1 h)]

/-! ## Calendar arithmetic (the naive-UTC model of `datetime`) -/

/-- Gregorian leap-year test. -/
def isLeapYear (y : ℤ) : Bool := (y % 4 = 0 && y % 100 ≠ 0) || y % 400 = 0

/-- Length of month `m` in year `y`. -/
def daysInMonth (y : ℤ) (m : ℕ) : ℕ :=
  if m = 2 then (if isLeapYear y then 29 else 28)
  else if m = 4 ∨ m = 6 ∨ m = 9 ∨ m = 11 then 30
  else 31

/-- Days from 1970-01-01 to the given Gregorian civil date (the standard
days-from-civil algorithm, using floor division). -/
def daysFromCivil (y m d : ℤ) : ℤ :=
  let y' := if m ≤ 2 then y - 1 else y
  let era := Int.fdiv y' 400
  let yoe := y' - era * 400
  let mp := if 2 < m then m - 3 else m + 9
  let doy := Int.fdiv (153 * mp + 2) 5 + d - 1
  let doe := yoe * 365 + Int.fdiv yoe 4 - Int.fdiv yoe 100 + doy
  era * 146097 + doe - 719468

/-- Epoch seconds of a civil date-time interpreted as UTC. -/
def epochOf (y m d h mi s : ℕ) : ℤ :=
  daysFromCivil y m d * 86400 + h * 3600 + mi * 60 + s

/-- Parse the `%Y<sep>%m<sep>%d` date part: 1-4 digit year, 1-2 digit
month and day, validated as `datetime` validates them. -/
def parseYMD (sep : Char) (s : PyStr) : Option (ℕ × ℕ × ℕ) :=
  match splitOnChar sep s with
  | [ys, ms, ds] =>
    match natField ys 1 4, natField ms 1 2, natField ds 1 2 with
    | some y, some m, some d =>
      if 1 ≤ y && 1 ≤ m && m ≤ 12 && 1 ≤ d && d ≤ daysInMonth y m then
        some (y, m, d)
      else none
    | _, _, _ => none
  | _ => none

/-- Parse the `%H:%M:%S` time part with `datetime`'s range checks. -/
def parseHMS (s : PyStr) : Option (ℕ × ℕ × ℕ) :=
  match splitOnChar ':' s with
  | [hs, ms, ss] =>
    match natField hs 1 2, natField ms 1 2, natField ss 1 2 with
    | some h, some mi, some sec =>
      if h ≤ 23 && mi ≤ 59 && sec ≤ 59 then some (h, mi, sec) else none
    | _, _, _ => none
  | _ => none

/-- Does the string end with a literal `Z`? -/
def endsWithZ (s : PyStr) : Bool := s.getLast? = some 'Z'

/-- `datetime.strptime(s, "%Y-%m-%dT%H:%M:%S.%fZ").timestamp()` in the
naive-UTC model; `%f` is 1-6 digits of a second's decimal fraction. -/
def strptimeFmtA (s : PyStr) : Option ℚ :=
  if endsWithZ s then
    match splitOnChar 'T' s.dropLast with
    | [d, t] =>
      match splitOnChar '.' t with
      | [hms, frac] =>
        match parseYMD '-' d, parseHMS hms, natField frac 1 6 with
        | some (y, m, dd), some (h, mi, sec), some f =>
          some ((epochOf y m dd h mi sec : ℚ) + (f : ℚ) / 10 ^ frac.length)
        | _, _, _ => none
      | _ => none
    | _ => none
  else none

/-- `datetime.strptime(s, "%Y-%m-%dT%H:%M:%SZ").timestamp()` in the
naive-UTC model. -/
def strptimeFmtB (s : PyStr) : Option ℚ :=
  if endsWithZ s then
    match splitOnChar 'T' s.dropLast with
    | [d, t] =>
      match parseYMD '-' d, parseHMS t with
      | some (y, m, dd), some (h, mi, sec) =>
        some ((epochOf y m dd h mi sec : ℚ))
      | _, _ => none
    | _ => none
  else none

/-- The two ISO formats tried in order by `load_locations` for
`startTime` (lines 122-130 of the source): the `.%f` form first, then the
whole-second form; `none` when both raise `ValueError`. -/
def strptimeISO (s : PyStr) : Option ℚ :=
  (strptimeFmtA s).orElse (fun _ => strptimeFmtB s)

/-- `datetime.strptime(s, "%Y:%m:%d %H:%M:%S").timestamp()` used for
`EXIF:DateTimeOriginal` (line 180), in the naive-UTC model. -/
def strptimeExif (s : PyStr) : Option ℚ :=
  match splitOnChar ' ' s with
  | [d, t] =>
    match parseYMD ':' d, parseHMS t with
    | some (y, m, dd), some (h, mi, sec) =>
      some ((epochOf y m dd h mi sec : ℚ))
    | _, _ => none
  | _ => none

/-! ## JSON values and fragments of Python dynamic semantics -/

/-- The values `json.load` can produce. -/
inductive Json where
  | null : Json
  | bool (b : Bool) : Json
  | num (q : ℚ) : Json
  | str (s : PyStr) : Json
  | arr (elems : List Json) : Json
  | obj (fields : List (PyStr × Json)) : Json

/-- The Python exception classes raised by code paths of this program. -/
inductive PyErr where
  | typeError : PyErr
  | keyError : PyErr
  | indexError : PyErr
  | attributeError : PyErr
deriving DecidableEq

instance {ε α : Type} [DecidableEq ε] [DecidableEq α] : DecidableEq (Except ε α) := fun a b =>
  match a, b with
  | .error e, .error f =>
    if h : e = f then .isTrue (by rw [h]) else .isFalse (by intro hh; cases hh; exact h rfl)
  | .ok x, .ok y =>
    if h : x = y then .isTrue (by rw [h]) else .isFalse (by intro hh; cases hh; exact h rfl)
  | .error _, .ok _ => .isFalse (fun hh => Except.noConfusion hh)
  | .ok _, .error _ => .isFalse (fun hh => Except.noConfusion hh)

/-- Python truthiness of a JSON-decoded value (`if not x`). -/
def truthy : Json → Bool
  | .null => false
  | .bool b => b
  | .num q => decide (q ≠ 0)
  | .str s => !s.isEmpty
  | .arr xs => !xs.isEmpty
  | .obj kvs => !kvs.isEmpty

/-- First-match association-list lookup (JSON objects decoded by
`json.load` carry distinct keys). -/
def lookupKey (kvs : List (PyStr × Json)) (k : PyStr) : Option Json :=
  match kvs with
  | [] => none
  | (k', v) :: rest => if k' = k then some v else lookupKey rest k

/-- `x.get(k, d)`: dictionary lookup with default; on a non-dictionary it
raises `AttributeError`. -/
def pyGetD (j : Json) (k : PyStr) (d : Json) : Except PyErr Json :=
  match j with
  | .obj kvs => .ok ((lookupKey kvs k).getD d)
  | _ => .error .attributeError

/-- `x[k]` string subscription: `KeyError` when the key is absent,
`TypeError` on a non-dictionary. -/
def pyGetItem (j : Json) (k : PyStr) : Except PyErr Json :=
  match j with
  | .obj kvs =>
    match lookupKey kvs k with
    | some v => .ok v
    | none => .error .keyError
  | _ => .error .typeError

/-- Python's `needle in x` for a string needle: key containment on
dictionaries, substring test on strings, element equality on lists,
`TypeError` otherwise. -/
def pyIn (needle : PyStr) (j : Json) : Except PyErr Bool :=
  match j with
  | .obj kvs => .ok (kvs.any (fun kv => kv.1 = needle))
  | .str s => .ok (isInfixL needle s)
  | .arr xs => .ok (xs.any (fun x => match x with | .str s => s = needle | _ => false))
  | _ => .error .typeError

/-- Python's `for _ in x`: elements of a list, characters (as one-element
strings) of a string, keys of a dictionary; `TypeError` otherwise. -/
def pyIter : Json → Except PyErr (List Json)
  | .arr xs => .ok xs
  | .str s => .ok (s.map (fun c => Json.str [c]))
  | .obj kvs => .ok (kvs.map (fun kv => Json.str kv.1))
  | _ => .error .typeError

/-- The `int(x)` builtin on a JSON-decoded value: parse for strings,
truncation for numbers, 0/1 for booleans; `TypeError` otherwise.
`Option.none` in the result models `ValueError`. -/
def pyIntOf : Json → Except PyErr (Option ℤ)
  | .str s => .ok (pyIntOfStr s)
  | .num q => .ok (some (truncRat q))
  | .bool b => .ok (some (if b then 1 else 0))
  | _ => .error .typeError

/-! ## The program: data model -/

/-- The `Location` class (lines 38-56): a timestamped position.  The
source class has no altitude field. -/
structure Location where
  timestamp : ℚ
  latitude : ℚ
  longitude : ℚ
deriving DecidableEq

/-- `Location.__lt__` compares timestamps (lines 55-56); sorting and
`bisect_left` use only this order.  `leTime` is its reflexive closure,
the order in which a Python ascending sort leaves the list. -/
def leTime (a b : Location) : Prop := a.timestamp ≤ b.timestamp

instance : DecidableRel leTime := fun a b =>
  inferInstanceAs (Decidable (a.timestamp ≤ b.timestamp))

instance : IsTotal Location leTime := ⟨fun a b => le_total a.timestamp b.timestamp⟩

instance : IsTrans Location leTime := ⟨fun _ _ _ h1 h2 => le_trans h1 h2⟩

instance : IsRefl Location leTime := ⟨fun a => le_refl a.timestamp⟩

/-! ## The program: parsing the location history (`load_locations`) -/

/-- The body of the inner `for point in timeline_path` loop
(lines 133-160): one point of a timeline path, given the parsed
`start_time`.  `Except.ok none` is a silently-or-warned skipped point
(`continue`); `Except.ok (some loc)` appends one location. -/
def processPoint (start_time : ℚ) (point : Json) : Except PyErr (Option Location) := do
  let pointJ ← pyGetD point (strL "point") Json.null
  let offJ ← pyGetD point (strL "durationMinutesOffsetFromStartTime") Json.null
  if !truthy pointJ || !truthy offJ then return none
  else
    match pointJ with
    | .str ps =>
      if !(strL "geo:").isPrefixOf ps then return none
      else
        match splitOnChar ',' (ps.drop 4) with
        | [latS, lonS] =>
          (match pyFloatOfStr latS, pyFloatOfStr lonS with
          | some latitude, some longitude => do
            let off? ← pyIntOf offJ
            match off? with
            | none => return none
            | some duration_offset =>
              return some ⟨start_time + 60 * (duration_offset : ℚ), latitude, longitude⟩
          | _, _ => return none)
        | _ => return none
    | _ => .error .attributeError

/-- The body of the outer `for entry in location_data` loop
(lines 113-160): skip entries without a `timelinePath` key, parse
`startTime` with the two ISO formats (warn-and-skip on failure), then
process every point of the timeline path. -/
def processEntry (entry : Json) : Except PyErr (List Location) := do
  let hasTP ← pyIn (strL "timelinePath") entry
  if !hasTP then return []
  else do
    let startJ ← pyGetD entry (strL "startTime") Json.null
    if !truthy startJ then return []
    else
      match startJ with
      | .str start_time_str =>
        match strptimeISO start_time_str with
        | none => return []
        | some start_time => do
          let tpJ ← pyGetD entry (strL "timelinePath") (Json.arr [])
          let points ← pyIter tpJ
          let recs ← points.mapM (processPoint start_time)
          return recs.reduceOption
      | _ => .error .typeError

/-- `load_locations` (lines 104-167) after `json.load`: iterate the
top-level value, collect the locations of every timeline-path entry, then
sort once ascending by timestamp (`locations_list.sort()`, a stable
ascending sort using `Location.__lt__`). -/
def load_locations (location_data : Json) : Except PyErr (List Location) := do
  let entries ← pyIter location_data
  let chunks ← entries.mapM processEntry
  return List.insertionSort leTime chunks.flatten

/-! ## The program: nearest-timestamp search -/

/-- `bisect.bisect_left(locations, image_location)` (line 199): on a
sorted list, the leftmost insertion position, i.e. the length of the
maximal prefix of elements `< image_location` under `Location.__lt__`. -/
def bisect_left (locations : List Location) (image_location : Location) : ℕ :=
  (locations.takeWhile (fun r => decide (r.timestamp < image_location.timestamp))).length

/-- `find_closest_location_in_time` (lines 196-212).  `none` models the
`IndexError` raised by `locations[0]` on an empty list. -/
def find_closest_location_in_time (locations : List Location) (image_location : Location) :
    Option Location :=
  let pos := bisect_left locations image_location
  if pos = 0 then locations.head?
  else if pos = locations.length then locations.getLast?
  else
    match locations[pos - 1]?, locations[pos]? with
    | some before, some after =>
      some (if after.timestamp - image_location.timestamp <
              image_location.timestamp - before.timestamp
            then after else before)
    | _, _ => none

/-- The nearest query as a state transformer over the index, making the
read-only access explicit: the returned index is the one the query leaves
behind (the function only reads `locations`). -/
def find_closest_state (locations : List Location) (image_location : Location) :
    Option Location × List Location :=
  (find_closest_location_in_time locations image_location, locations)

/-! ## The program: per-photo matching -/

/-- `get_approximate_image_location` (lines 170-193), applied to the
photo's already-read metadata dictionary.  `Except.ok none` is the
warned skip path that returns `None, None, None`;
`Except.error .keyError` is the uncaught `metadata["EXIF:DateTimeOriginal"]`
on an absent key; `Except.error .typeError` is `strptime` applied to a
non-string value. -/
def get_approximate_image_location (timezone_offset : ℤ) (locations_list : List Location)
    (metadata : Json) : Except PyErr (Option (PyStr × Location × ℚ)) := do
  let dto ← pyGetItem metadata (strL "EXIF:DateTimeOriginal")
  if !truthy dto then return none
  else
    match dto with
    | .str date_time_original =>
      match strptimeExif date_time_original with
      | none => return none
      | some image_time =>
        let image_time_unix : ℚ := image_time - (timezone_offset : ℚ) * 3600
        let image_location : Location := ⟨image_time_unix, 0, 0⟩
        match find_closest_location_in_time locations_list image_location with
        | none => .error .indexError
        | some approx_location =>
          return some (date_time_original, approx_location,
            pyAbs (approx_location.timestamp - image_time_unix) / 3600)
    | _ => .error .typeError

/-- `hours_away` (line 192): absolute time difference in hours. -/
def hours_away_of (approx_timestamp image_time_unix : ℚ) : ℚ :=
  pyAbs (approx_timestamp - image_time_unix) / 3600

/-- The acceptance comparison of the photo loop (line 273):
`hours_away < error_hours`, with `error_hours` an integer from the CLI. -/
def matchAccepted (hours_away : ℚ) (error_hours : ℤ) : Bool :=
  decide (hours_away < (error_hours : ℚ))

/-- Outcome of one photo-loop iteration: `geotagged` records the
coordinates written by `geotag_image`; `notGeotagged` writes nothing. -/
inductive Outcome where
  | geotagged (latitude longitude : ℚ) : Outcome
  | notGeotagged : Outcome
deriving DecidableEq

/-- One iteration of the `__main__` photo loop (lines 262-281).  When
`get_approximate_image_location` returns the `None, None, None` skip
triple, the loop immediately evaluates `hours_away < error_hours` with
`hours_away = None`, which raises an uncaught `TypeError`
(`'<' not supported between instances of 'NoneType' and 'int'`). -/
def photoStep (timezone_offset error_hours : ℤ) (locations_list : List Location)
    (metadata : Json) : Except PyErr Outcome := do
  let r ← get_approximate_image_location timezone_offset locations_list metadata
  match r with
  | none => .error .typeError
  | some (_, approx_location, hours_away) =>
    if matchAccepted hours_away error_hours then
      return .geotagged approx_location.latitude approx_location.longitude
    else
      return .notGeotagged

/-- The photo loop over a directory listing of metadata dictionaries; an
uncaught exception in any iteration aborts the whole run. -/
def processPhotos (timezone_offset error_hours : ℤ) (locations_list : List Location)
    (photos : List Json) : Except PyErr (List Outcome) :=
  photos.mapM (photoStep timezone_offset error_hours locations_list)

/-- The `__main__` flow after reading the image directory: load and sort
the location history, then run the photo loop.  No validation of the
parsed location count happens between the two stages. -/
def runPipeline (timezone_offset error_hours : ℤ) (location_data : Json)
    (photos : List Json) : Except PyErr (List Outcome) := do
  let locations_list ← load_locations location_data
  processPhotos timezone_offset error_hours locations_list photos

/-! ## The program: elapsed-time display -/

/-- The three display shapes of `get_formatted_time_error`
(lines 237-249) with their exact numeric payloads; rendering the payload
with `%.2f`/`%.1f` is presentation only and not modelled. -/
inductive TimeErrorDisplay where
  | hoursFmt (hours : ℚ) : TimeErrorDisplay
  | minutesFmt (minutes : ℚ) : TimeErrorDisplay
  | secondsFmt (seconds : ℤ) : TimeErrorDisplay
deriving DecidableEq

/-- `get_formatted_time_error` (lines 237-249): `hours > 1` selects the
hours display, else `minutes > 1` the minutes display, else the
truncated-seconds display. -/
def get_formatted_time_error (hours : ℚ) : TimeErrorDisplay :=
  if 1 < hours then .hoursFmt hours
  else
    let minutes := hours * 60
    if 1 < minutes then .minutesFmt minutes
    else .secondsFmt (truncRat (minutes * 60))

/-! ## Properties of the bisection search -/

theorem bisect_left_le_length (l : List Location) (x : Location) :
    bisect_left l x ≤ l.length :=
  (List.takeWhile_sublist _).length_le

/-- Every element strictly before the insertion position has a timestamp
strictly below the target (this needs no sortedness). -/
theorem timestamp_lt_of_lt_bisect (l : List Location) (x : Location) :
    ∀ (i : ℕ) (hi : i < l.length), i < bisect_left l x →
      (l.get ⟨i, hi⟩).timestamp < x.timestamp := by
  induction l with
  | nil => intro i hi _; simp at hi
  | cons a t ih =>
    intro i hi hlt
    by_cases hpa : a.timestamp < x.timestamp
    · cases i with
      | zero => simpa using hpa
      | succ j =>
        have hb : bisect_left (a :: t) x = bisect_left t x + 1 := by
          simp [bisect_left, List.takeWhile_cons, hpa]
        have hj : j < t.length := by simpa [Nat.succ_lt_succ_iff] using hi
        have := ih j hj (by omega)
        simpa using this
    · have hb : bisect_left (a :: t) x = 0 := by
        simp [bisect_left, List.takeWhile_cons, hpa]
      omega

/-- On a sorted list, every element at or after the insertion position
has a timestamp at or above the target. -/
theorem le_timestamp_of_bisect_le (l : List Location) (x : Location)
    (hs : List.Sorted leTime l) :
    ∀ (i : ℕ) (hi : i < l.length), bisect_left l x ≤ i →
      x.timestamp ≤ (l.get ⟨i, hi⟩).timestamp := by
  induction l with
  | nil => intro i hi _; simp at hi
  | cons a t ih =>
    intro i hi hge
    by_cases hpa : a.timestamp < x.timestamp
    · have hb : bisect_left (a :: t) x = bisect_left t x + 1 := by
        simp [bisect_left, List.takeWhile_cons, hpa]
      cases i with
      | zero => omega
      | succ j =>
        have hj : j < t.length := by simpa [Nat.succ_lt_succ_iff] using hi
        have := ih hs.of_cons j hj (by omega)
        simpa using this
    · cases i with
      | zero => simpa using not_lt.1 hpa
      | succ j =>
        have hj : j < t.length := by simpa [Nat.succ_lt_succ_iff] using hi
        have hmem : t.get ⟨j, hj⟩ ∈ t := List.get_mem t j hj
        have hle : a.timestamp ≤ (t.get ⟨j, hj⟩).timestamp :=
          (List.pairwise_cons.1 hs).1 _ hmem
        have := le_trans (not_lt.1 hpa) hle
        simpa using this

/-- Timestamps are monotone in the index of a sorted list. -/
theorem sorted_timestamp_mono (l : List Location) (hs : List.Sorted leTime l)
    (i j : ℕ) (hi : i < l.length) (hj : j < l.length) (hij : i ≤ j) :
    (l.get ⟨i, hi⟩).timestamp ≤ (l.get ⟨j, hj⟩).timestamp :=
  hs.rel_get_of_le (show (⟨i, hi⟩ : Fin l.length) ≤ ⟨j, hj⟩ from hij)

/-! ## Claim C1: the nearest query minimizes the absolute time delta -/

/-- C1: on every non-empty timestamp-sorted list, the nearest-timestamp
search returns a record minimizing `|r.timestamp - t|` over the whole
list, and when the two neighboring candidates around the insertion
position have exactly equal time differences the earlier (`before`)
record is the one returned. -/
theorem nearest_minimizes_abs_delta (l : List Location) (x : Location)
    (hne : l ≠ []) (hs : List.Sorted leTime l) :
    ∃ r, find_closest_location_in_time l x = some r ∧ r ∈ l ∧
      (∀ r' ∈ l, |r.timestamp - x.timestamp| ≤ |r'.timestamp - x.timestamp|) ∧
      (∀ b a, l[bisect_left l x - 1]? = some b → l[bisect_left l x]? = some a →
        a.timestamp - x.timestamp = x.timestamp - b.timestamp → r = b) := by
  have hlen : 0 < l.length := List.length_pos.2 hne
  have hble : bisect_left l x ≤ l.length := bisect_left_le_length l x
  by_cases hpos0 : bisect_left l x = 0
  · -- the target precedes every record: the first record is returned
    refine ⟨l.get ⟨0, hlen⟩, ?_, List.get_mem l 0 hlen, ?_, ?_⟩
    · have h0 : l.head? = some (l.get ⟨0, hlen⟩) := by
        rw [List.head?_eq_getElem?, List.getElem?_eq_getElem hlen]
        rfl
      simp [find_closest_location_in_time, hpos0, h0]
    · intro r' hr'
      obtain ⟨⟨i, hi⟩, rfl⟩ := List.mem_iff_get.1 hr'
      have hx0 : x.timestamp ≤ (l.get ⟨0, hlen⟩).timestamp :=
        le_timestamp_of_bisect_le l x hs 0 hlen (by omega)
      have hxi : x.timestamp ≤ (l.get ⟨i, hi⟩).timestamp :=
        le_timestamp_of_bisect_le l x hs i hi (by omega)
      have hmono : (l.get ⟨0, hlen⟩).timestamp ≤ (l.get ⟨i, hi⟩).timestamp :=
        sorted_timestamp_mono l hs 0 i hlen hi (Nat.zero_le i)
      rw [abs_of_nonneg (by linarith), abs_of_nonneg (by linarith)]
      linarith
    · intro b a hb _ _
      simp only [hpos0, Nat.zero_sub] at hb
      rw [List.getElem?_eq_getElem hlen] at hb
      exact Option.some.inj hb
  by_cases hposn : bisect_left l x = l.length
  · -- the target follows every record: the last record is returned
    have hn1 : l.length - 1 < l.length := by omega
    have hlen0 : l.length ≠ 0 := by omega
    refine ⟨l.get ⟨l.length - 1, hn1⟩, ?_, List.get_mem l _ hn1, ?_, ?_⟩
    · have hgl : l.getLast? = some (l.get ⟨l.length - 1, hn1⟩) := by
        rw [List.getLast?_eq_getLast l hne, List.getLast_eq_get]
      simp [find_closest_location_in_time, hposn, hlen0, hgl]
    · intro r' hr'
      obtain ⟨⟨i, hi⟩, rfl⟩ := List.mem_iff_get.1 hr'
      have hxi : (l.get ⟨i, hi⟩).timestamp < x.timestamp :=
        timestamp_lt_of_lt_bisect l x i hi (by omega)
      have hxn : (l.get ⟨l.length - 1, hn1⟩).timestamp < x.timestamp :=
        timestamp_lt_of_lt_bisect l x _ hn1 (by omega)
      have hmono : (l.get ⟨i, hi⟩).timestamp ≤ (l.get ⟨l.length - 1, hn1⟩).timestamp :=
        sorted_timestamp_mono l hs i (l.length - 1) hi hn1 (by omega)
      rw [abs_of_nonpos (by linarith), abs_of_nonpos (by linarith)]
      linarith
    · intro b a _ ha _
      rw [hposn, List.getElem?_eq_none (le_refl l.length)] at ha
      exact Option.noConfusion ha
  · -- interior insertion position: compare the two neighbors
    have hposlt : bisect_left l x < l.length := lt_of_le_of_ne hble hposn
    have hpos1 : bisect_left l x - 1 < l.length := by omega
    have hbefore : (l.get ⟨bisect_left l x - 1, hpos1⟩).timestamp < x.timestamp :=
      timestamp_lt_of_lt_bisect l x _ hpos1 (by omega)
    have hafter : x.timestamp ≤ (l.get ⟨bisect_left l x, hposlt⟩).timestamp :=
      le_timestamp_of_bisect_le l x hs _ hposlt (by omega)
    have hgetb : l[bisect_left l x - 1]? = some (l.get ⟨bisect_left l x - 1, hpos1⟩) := by
      rw [List.getElem?_eq_getElem hpos1]; rfl
    have hgeta : l[bisect_left l x]? = some (l.get ⟨bisect_left l x, hposlt⟩) := by
      rw [List.getElem?_eq_getElem hposlt]; rfl
    have hfc : find_closest_location_in_time l x =
        some (if (l.get ⟨bisect_left l x, hposlt⟩).timestamp - x.timestamp <
                x.timestamp - (l.get ⟨bisect_left l x - 1, hpos1⟩).timestamp
              then l.get ⟨bisect_left l x, hposlt⟩
              else l.get ⟨bisect_left l x - 1, hpos1⟩) := by
      simp [find_closest_location_in_time, hpos0, hposn, hgetb, hgeta]
    by_cases hA : (l.get ⟨bisect_left l x, hposlt⟩).timestamp - x.timestamp <
        x.timestamp - (l.get ⟨bisect_left l x - 1, hpos1⟩).timestamp
    · -- the later neighbor is strictly closer: `after` wins
      refine ⟨l.get ⟨bisect_left l x, hposlt⟩, ?_, List.get_mem l _ hposlt, ?_, ?_⟩
      · rw [hfc, if_pos hA]
      · intro r' hr'
        obtain ⟨⟨i, hi⟩, rfl⟩ := List.mem_iff_get.1 hr'
        by_cases hip : i < bisect_left l x
        · have h1 : (l.get ⟨i, hi⟩).timestamp < x.timestamp :=
            timestamp_lt_of_lt_bisect l x i hi hip
          have h2 : (l.get ⟨i, hi⟩).timestamp ≤
              (l.get ⟨bisect_left l x - 1, hpos1⟩).timestamp :=
            sorted_timestamp_mono l hs i _ hi hpos1 (by omega)
          rw [abs_of_nonneg (by linarith), abs_of_nonpos (by linarith)]
          linarith
        · have h1 : x.timestamp ≤ (l.get ⟨i, hi⟩).timestamp :=
            le_timestamp_of_bisect_le l x hs i hi (by omega)
          have h2 : (l.get ⟨bisect_left l x, hposlt⟩).timestamp ≤
              (l.get ⟨i, hi⟩).timestamp :=
            sorted_timestamp_mono l hs _ i hposlt hi (by omega)
          rw [abs_of_nonneg (by linarith), abs_of_nonneg (by linarith)]
          linarith
      · intro b a hb ha htie
        rw [hgetb] at hb
        rw [hgeta] at ha
        injection hb with hb
        injection ha with ha
        rw [hb, ha] at hA
        rw [htie] at hA
        exact absurd hA (lt_irrefl _)
    · -- equal or farther: the earlier neighbor `before` wins (tie included)
      refine ⟨l.get ⟨bisect_left l x - 1, hpos1⟩, ?_, List.get_mem l _ hpos1, ?_, ?_⟩
      · rw [hfc, if_neg hA]
      · intro r' hr'
        obtain ⟨⟨i, hi⟩, rfl⟩ := List.mem_iff_get.1 hr'
        have hBA : x.timestamp - (l.get ⟨bisect_left l x - 1, hpos1⟩).timestamp ≤
            (l.get ⟨bisect_left l x, hposlt⟩).timestamp - x.timestamp := not_lt.1 hA
        by_cases hip : i < bisect_left l x
        · have h1 : (l.get ⟨i, hi⟩).timestamp < x.timestamp :=
            timestamp_lt_of_lt_bisect l x i hi hip
          have h2 : (l.get ⟨i, hi⟩).timestamp ≤
              (l.get ⟨bisect_left l x - 1, hpos1⟩).timestamp :=
            sorted_timestamp_mono l hs i _ hi hpos1 (by omega)
          rw [abs_of_nonpos (by linarith), abs_of_nonpos (by linarith)]
          linarith
        · have h1 : x.timestamp ≤ (l.get ⟨i, hi⟩).timestamp :=
            le_timestamp_of_bisect_le l x hs i hi (by omega)
          have h2 : (l.get ⟨bisect_left l x, hposlt⟩).timestamp ≤
              (l.get ⟨i, hi⟩).timestamp :=
            sorted_timestamp_mono l hs _ i hposlt hi (by omega)
          rw [abs_of_nonpos (by linarith), abs_of_nonneg (by linarith)]
          linarith
      · intro b a hb _ _
        rw [hgetb] at hb
        exact Option.some.inj hb

/-- Witness for C1 on an exact tie: with records at timestamps 0 and 10
and target 5, the earlier record is returned and minimizes the delta. -/
theorem nearest_minimizes_abs_delta_witness :
    ∃ r : Location,
      find_closest_location_in_time ([⟨0, 1, 2⟩, ⟨10, 3, 4⟩] : List Location)
          (⟨5, 0, 0⟩ : Location) = some r ∧
      r ∈ ([⟨0, 1, 2⟩, ⟨10, 3, 4⟩] : List Location) ∧
      (∀ r' ∈ ([⟨0, 1, 2⟩, ⟨10, 3, 4⟩] : List Location),
        |r.timestamp - Location.timestamp ⟨5, 0, 0⟩| ≤
          |r'.timestamp - Location.timestamp ⟨5, 0, 0⟩|) ∧
      (∀ b a,
        ([⟨0, 1, 2⟩, ⟨10, 3, 4⟩] : List Location)[bisect_left
            ([⟨0, 1, 2⟩, ⟨10, 3, 4⟩] : List Location) (⟨5, 0, 0⟩ : Location) - 1]? = some b →
        ([⟨0, 1, 2⟩, ⟨10, 3, 4⟩] : List Location)[bisect_left
            ([⟨0, 1, 2⟩, ⟨10, 3, 4⟩] : List Location) (⟨5, 0, 0⟩ : Location)]? = some a →
        a.timestamp - Location.timestamp ⟨5, 0, 0⟩ =
          Location.timestamp ⟨5, 0, 0⟩ - b.timestamp → r = b) :=
  nearest_minimizes_abs_delta ([⟨0, 1, 2⟩, ⟨10, 3, 4⟩] : List Location) (⟨5, 0, 0⟩ : Location)
    (by decide) (by decide)

/-! ## Claim C8: boundary behavior of the nearest query -/

/-- C8: on a non-empty sorted index, a target at or before the first
record's timestamp returns the first record, and a target strictly after
the last record's timestamp returns the last record. -/
theorem nearest_boundary_first_last (l : List Location) (x : Location)
    (hne : l ≠ []) (hs : List.Sorted leTime l) :
    (x.timestamp ≤ (l.head hne).timestamp →
      find_closest_location_in_time l x = some (l.head hne)) ∧
    ((l.getLast hne).timestamp < x.timestamp →
      find_closest_location_in_time l x = some (l.getLast hne)) := by
  have hlen : 0 < l.length := List.length_pos.2 hne
  constructor
  · intro hle
    have hb : bisect_left l x = 0 := by
      obtain ⟨c, t, rfl⟩ := List.exists_cons_of_ne_nil hne
      rw [List.head_cons] at hle
      simp [bisect_left, List.takeWhile_cons, not_lt.2 hle]
    have h0 : l.head? = some (l.head hne) := List.head?_eq_head hne
    simp [find_closest_location_in_time, hb, h0]
  · intro hlt
    have hall : ∀ c ∈ l, c.timestamp < x.timestamp := by
      intro c hc
      obtain ⟨⟨i, hi⟩, rfl⟩ := List.mem_iff_get.1 hc
      have h1 : (l.get ⟨i, hi⟩).timestamp ≤ (l.getLast hne).timestamp := by
        rw [List.getLast_eq_get]
        exact sorted_timestamp_mono l hs i (l.length - 1) hi (by omega) (by omega)
      exact lt_of_le_of_lt h1 hlt
    have hb : bisect_left l x = l.length := by
      unfold bisect_left
      rw [List.takeWhile_eq_self_iff.2 (fun c hc => by simpa using hall c hc)]
    have hlen0 : l.length ≠ 0 := by omega
    have hgl : l.getLast? = some (l.getLast hne) := List.getLast?_eq_getLast l hne
    simp [find_closest_location_in_time, hb, hlen0, hgl]

/-- Witness for C8: targets outside the index range on both sides. -/
theorem nearest_boundary_first_last_witness :
    find_closest_location_in_time [⟨5, 1, 2⟩, ⟨10, 3, 4⟩] ⟨2, 0, 0⟩ = some ⟨5, 1, 2⟩ ∧
    find_closest_location_in_time [⟨5, 1, 2⟩, ⟨10, 3, 4⟩] ⟨11, 0, 0⟩ = some ⟨10, 3, 4⟩ :=
  ⟨(nearest_boundary_first_last [⟨5, 1, 2⟩, ⟨10, 3, 4⟩] ⟨2, 0, 0⟩ (by decide) (by decide)).1
      (by decide),
   (nearest_boundary_first_last [⟨5, 1, 2⟩, ⟨10, 3, 4⟩] ⟨11, 0, 0⟩ (by decide) (by decide)).2
      (by decide)⟩

/-! ## Claim C2: strict acceptance threshold -/

/-- C2: a match is accepted if and only if `delta_seconds / 3600` is
strictly less than `tolerance_hours`; a delta of exactly
`tolerance_hours * 3600` seconds is rejected, and the photo-loop
iteration then ends in `notGeotagged` (no metadata write). -/
theorem acceptance_strict_threshold (error_hours : ℤ) (approx_t image_t : ℚ) :
    (matchAccepted (hours_away_of approx_t image_t) error_hours = true ↔
      |approx_t - image_t| / 3600 < (error_hours : ℚ)) ∧
    (|approx_t - image_t| = (error_hours : ℚ) * 3600 →
      matchAccepted (hours_away_of approx_t image_t) error_hours = false) ∧
    (∀ (tz : ℤ) (locs : List Location) (meta : Json) (s : PyStr) (loc : Location),
      get_approximate_image_location tz locs meta =
          Except.ok (some (s, loc, (error_hours : ℚ))) →
      photoStep tz error_hours locs meta = Except.ok Outcome.notGeotagged) := by
  refine ⟨by simp [matchAccepted, hours_away_of, pyAbs_eq_abs], fun h => ?_,
    fun tz locs meta s loc h => ?_⟩
  · simp only [matchAccepted, hours_away_of, pyAbs_eq_abs, h, decide_eq_false_iff_not, not_lt,
      mul_div_assoc]
    norm_num
  · simp only [photoStep, h, bind, Except.bind, matchAccepted]
    simp [pure, Except.pure]

unseal Rat.mul Rat.inv Rat.add Rat.sub in
/-- Witness for C2 at the boundary: with a one-hour tolerance and a
location exactly 3600 seconds away from the capture time, the photo is
not geotagged. -/
theorem acceptance_strict_threshold_witness :
    photoStep 0 1 [⟨3600, 1, 2⟩]
        (Json.obj [(strL "EXIF:DateTimeOriginal", Json.str (strL "1970:01:01 02:00:00"))]) =
      Except.ok Outcome.notGeotagged :=
  (acceptance_strict_threshold 1 3600 7200).2.2 0 [⟨3600, 1, 2⟩]
    (Json.obj [(strL "EXIF:DateTimeOriginal", Json.str (strL "1970:01:01 02:00:00"))])
    (strL "1970:01:01 02:00:00") ⟨3600, 1, 2⟩
    (by decide)

/-! ## Claim C3: unreadable capture timestamp (code bug) -/

/-- C3 is a code bug: `get_approximate_image_location` does print a
warning and return the skip triple `None, None, None` for a falsy or
malformed `DateTimeOriginal`, but the `__main__` loop then evaluates
`hours_away < error_hours` with `hours_away = None`, raising an uncaught
`TypeError` that aborts the run; an absent `EXIF:DateTimeOriginal` key
aborts even earlier with an uncaught `KeyError` from
`metadata["EXIF:DateTimeOriginal"]`.  The fourth conjunct shows a run
over two photos where the first photo's bad timestamp prevents the
second (well-formed) photo from ever being processed. -/
theorem unreadable_timestamp_aborts_run :
    photoStep 0 1 [⟨0, 1, 2⟩]
        (Json.obj [(strL "EXIF:DateTimeOriginal", Json.str [])]) =
      Except.error PyErr.typeError ∧
    photoStep 0 1 [⟨0, 1, 2⟩]
        (Json.obj [(strL "Make", Json.str (strL "X"))]) =
      Except.error PyErr.keyError ∧
    photoStep 0 1 [⟨0, 1, 2⟩]
        (Json.obj [(strL "EXIF:DateTimeOriginal", Json.str (strL "2023-01-01"))]) =
      Except.error PyErr.typeError ∧
    processPhotos 0 1 [⟨0, 1, 2⟩]
        [Json.obj [(strL "EXIF:DateTimeOriginal", Json.str [])],
         Json.obj [(strL "EXIF:DateTimeOriginal", Json.str (strL "1970:01:01 02:00:00"))]] =
      Except.error PyErr.typeError := by
  refine ⟨?_, ?_, ?_, ?_⟩ <;> decide

/-! ## Claim C4: empty index (corrected) -/

unseal Rat.mul Rat.inv Rat.add Rat.sub in
/-- Counterexample to C4: with a location history that parses to zero
records, `load_locations` returns normally (no validation of the parsed
location count exists), the photo loop is entered, and the first
nearest-timestamp query aborts the run with an `IndexError` from
`locations[0]` - not with any dedicated EmptyIndex fail-fast error, and
not prevented upstream. -/
theorem empty_index_not_prevented_cx :
    runPipeline 0 1 (Json.arr [])
        [Json.obj [(strL "EXIF:DateTimeOriginal", Json.str (strL "2023:01:01 00:00:00"))]] =
      Except.error PyErr.indexError := by
  decide

/-- C4 as amended: a nearest query against a zero-record index produces
no record (the `locations[0]` access raises `IndexError`, modelled as
`none`); `load_locations` returns an empty history as `ok []` without
aborting; and the run proceeds from loading directly into the photo loop
with the empty index - no count validation happens in between. -/
theorem empty_index_crashes_unvalidated :
    (∀ x, find_closest_location_in_time [] x = none) ∧
    load_locations (Json.arr []) = Except.ok [] ∧
    (∀ (tz eh : ℤ) (photos : List Json),
      runPipeline tz eh (Json.arr []) photos = processPhotos tz eh [] photos) :=
  ⟨fun _ => rfl, rfl, fun _ _ _ => rfl⟩

/-! ## Claim C5: sorted, immutable index -/

/-- C5: whatever location-history input parsing succeeds on, the record
list produced by the parse and the single bulk sort is non-decreasing in
timestamp, and a nearest query leaves the index unchanged (the query
reads the list and hands it back as is). -/
theorem index_sorted_and_query_pure (history : Json) (l : List Location)
    (h : load_locations history = Except.ok l) :
    List.Sorted leTime l ∧
    ∀ x, find_closest_state l x = (find_closest_location_in_time l x, l) := by
  refine ⟨?_, fun x => rfl⟩
  unfold load_locations at h
  cases hI : pyIter history with
  | error e => rw [hI] at h; simp [bind, Except.bind] at h
  | ok entries =>
    rw [hI] at h
    simp only [bind, Except.bind] at h
    cases hM : entries.mapM processEntry with
    | error e => rw [hM] at h; simp at h
    | ok chunks =>
      rw [hM] at h
      simp only [pure, Except.pure, Except.ok.injEq] at h
      rw [← h]
      exact List.sorted_insertionSort leTime chunks.flatten

unseal Rat.mul Rat.inv Rat.add Rat.sub in
/-- Witness for C5 on a concrete two-point history whose points arrive
in descending time order: the loaded index comes back ascending. -/
theorem index_sorted_and_query_pure_witness :
    List.Sorted leTime [⟨1672533000, 30, 40⟩, ⟨1672534800, 10, 20⟩] ∧
    ∀ x, find_closest_state [⟨1672533000, 30, 40⟩, ⟨1672534800, 10, 20⟩] x =
      (find_closest_location_in_time [⟨1672533000, 30, 40⟩, ⟨1672534800, 10, 20⟩] x,
       [⟨1672533000, 30, 40⟩, ⟨1672534800, 10, 20⟩]) :=
  index_sorted_and_query_pure
    (Json.arr [Json.obj [(strL "startTime", Json.str (strL "2023-01-01T00:00:00.000Z")),
      (strL "timelinePath", Json.arr
        [Json.obj [(strL "point", Json.str (strL "geo:10.0,20.0")),
                   (strL "durationMinutesOffsetFromStartTime", Json.num 60)],
         Json.obj [(strL "point", Json.str (strL "geo:30.0,40.0")),
                   (strL "durationMinutesOffsetFromStartTime", Json.num 30)]])]])
    [⟨1672533000, 30, 40⟩, ⟨1672534800, 10, 20⟩] (by decide)

/-! ## Claim C6: timeline-path point parsing -/

/-- Evaluation of the inner point loop on a well-formed point: a truthy
`geo:`-prefixed point string whose body splits into two parseable decimal
coordinates, and a truthy offset that `int()` accepts, produce exactly
the location `(start_time + 60 * offset, lat, lon)`. -/
theorem processPoint_wellformed (start_time : ℚ) (geoBody latS lonS : PyStr)
    (lat lon : ℚ) (offJ : Json) (off : ℤ)
    (hsplit : splitOnChar ',' geoBody = [latS, lonS])
    (hlat : pyFloatOfStr latS = some lat)
    (hlon : pyFloatOfStr lonS = some lon)
    (htr : truthy offJ = true)
    (hoff : pyIntOf offJ = Except.ok (some off)) :
    processPoint start_time (Json.obj
      [(strL "point", Json.str (strL "geo:" ++ geoBody)),
       (strL "durationMinutesOffsetFromStartTime", offJ)]) =
      Except.ok (some ⟨start_time + 60 * (off : ℚ), lat, lon⟩) := by
  have hk : ¬ (strL "point" = strL "durationMinutesOffsetFromStartTime") := by decide
  have hgeolit : strL "geo:" = ['g', 'e', 'o', ':'] := rfl
  have htps : truthy (Json.str ('g' :: 'e' :: 'o' :: ':' :: geoBody)) = true := rfl
  simp [processPoint, pyGetD, lookupKey, hk, hgeolit, bind, Except.bind, pure, Except.pure,
    htps, htr, List.isPrefixOf, hsplit, hlat, hlon, hoff, List.cons_append]

/-- C6: a well-formed timeline-path point yields exactly one record with
timestamp `startTime + offset_minutes * 60` (epoch seconds) and the
latitude/longitude taken verbatim from the `geo:<lat>,<lon>` string. -/
theorem timeline_point_parsed (stStr : PyStr) (st : ℚ) (geoBody latS lonS : PyStr)
    (lat lon : ℚ) (offJ : Json) (off : ℤ)
    (hst : strptimeISO stStr = some st)
    (hsplit : splitOnChar ',' geoBody = [latS, lonS])
    (hlat : pyFloatOfStr latS = some lat)
    (hlon : pyFloatOfStr lonS = some lon)
    (htr : truthy offJ = true)
    (hoff : pyIntOf offJ = Except.ok (some off)) :
    processEntry (Json.obj
      [(strL "startTime", Json.str stStr),
       (strL "timelinePath", Json.arr [Json.obj
         [(strL "point", Json.str (strL "geo:" ++ geoBody)),
          (strL "durationMinutesOffsetFromStartTime", offJ)]])]) =
      Except.ok [⟨st + 60 * (off : ℚ), lat, lon⟩] := by
  have hne : stStr.isEmpty = false := by
    cases stStr with
    | nil => rw [show strptimeISO [] = none from rfl] at hst; exact Option.noConfusion hst
    | cons c cs => rfl
  have hk1 : ¬ (strL "startTime" = strL "timelinePath") := by decide
  have hpp := processPoint_wellformed st geoBody latS lonS lat lon offJ off
    hsplit hlat hlon htr hoff
  simp [processEntry, pyIn, pyGetD, pyIter, lookupKey, hk1, hne, hst, hpp,
    bind, Except.bind, pure, Except.pure, truthy, List.reduceOption,
    List.mapM, List.mapM.loop]

unseal Rat.mul Rat.inv Rat.add Rat.sub in
/-- Witness for C6: the spec's worked example - startTime
`2023-01-01T00:00:00.000Z`, point `geo:10.0,20.0`, offset 30 minutes -
yields the single record with timestamp `epoch(2023-01-01T00:30:00Z) =
1672533000`, latitude 10.0, longitude 20.0. -/
theorem timeline_point_parsed_witness :
    processEntry (Json.obj
      [(strL "startTime", Json.str (strL "2023-01-01T00:00:00.000Z")),
       (strL "timelinePath", Json.arr [Json.obj
         [(strL "point", Json.str (strL "geo:" ++ strL "10.0,20.0")),
          (strL "durationMinutesOffsetFromStartTime", Json.num 30)]])]) =
      Except.ok [⟨1672533000, 10, 20⟩] := by
  have h := timeline_point_parsed (strL "2023-01-01T00:00:00.000Z") 1672531200
    (strL "10.0,20.0") (strL "10.0") (strL "20.0") 10 20 (Json.num 30) 30
    (by decide) (by decide) (by decide) (by decide) (by decide) (by decide)
  rw [h]
  simp only [Except.ok.injEq, List.cons.injEq, Location.mk.injEq, and_true]
  norm_num

/-! ## Claim C7: flat-list shape (corrected) -/

unseal Rat.mul Rat.inv Rat.add Rat.sub in
/-- Counterexample to C7: a flat-list history (object with key
`locations`, entries carrying `latitudeE7`) yields zero records - the
parser iterates the object's keys, finds no `timelinePath` substring in
`"locations"`, and skips; in particular no record with latitude 40.7128
is produced from `latitudeE7 = 407128000`. -/
theorem flat_shape_unsupported_cx :
    load_locations (Json.obj [(strL "locations", Json.arr [Json.obj [
        (strL "timestamp", Json.str (strL "2011-01-01T00:00:00.000Z")),
        (strL "latitudeE7", Json.num 407128000),
        (strL "longitudeE7", Json.num (-740060000)),
        (strL "altitude", Json.num 10)]])]) = Except.ok [] := by
  decide

/-- C7 as amended: the parser does not support the flat-list shape.  For
any JSON object whose single key is `locations`, whatever the attached
value, `load_locations` returns zero records: iterating a dictionary
yields its keys, and the key string `"locations"` does not contain
`"timelinePath"`, so the only entry is skipped.  No 1e7 scaling exists
anywhere in the parser. -/
theorem flat_shape_yields_no_records (v : Json) :
    load_locations (Json.obj [(strL "locations", v)]) = Except.ok [] := rfl

/-! ## Claim C9: adaptive elapsed-time display (corrected) -/

unseal Rat.mul Rat.inv Rat.add Rat.sub in
/-- Counterexample to C9: the thresholds are strict `>` comparisons, not
"at least": a delta of 100 seconds (100/3600 hours) is displayed in the
minutes format with value 5/3 ("1.7 min away"), not in the seconds
format as "100 sec away"; a delta of exactly one hour falls to the
minutes format, and a delta of exactly one minute falls to the seconds
format. -/
theorem formatter_boundaries_cx :
    get_formatted_time_error (100 / 3600) = TimeErrorDisplay.minutesFmt (5 / 3) ∧
    get_formatted_time_error 1 = TimeErrorDisplay.minutesFmt 60 ∧
    get_formatted_time_error (60 / 3600) = TimeErrorDisplay.secondsFmt 60 := by
  refine ⟨?_, ?_, ?_⟩ <;> decide

/-- C9 as amended: the elapsed time-away display is adaptive with strict
thresholds - hours format when the delta strictly exceeds 1 hour,
minutes format when it is at most 1 hour but strictly more than 60
seconds, seconds format otherwise; a delta of 100 seconds therefore uses
the minutes format with value 100/60 minutes. -/
theorem formatter_adaptive (hours : ℚ) :
    (1 < hours → get_formatted_time_error hours = .hoursFmt hours) ∧
    (hours ≤ 1 → 1 < hours * 60 →
      get_formatted_time_error hours = .minutesFmt (hours * 60)) ∧
    (hours * 60 ≤ 1 →
      get_formatted_time_error hours = .secondsFmt (truncRat (hours * 60 * 60))) := by
  unfold get_formatted_time_error
  refine ⟨fun h => by rw [if_pos h], fun h1 h2 => ?_, fun h => ?_⟩
  · rw [if_neg (not_lt.2 h1), if_pos h2]
  · have h1 : ¬ (1 : ℚ) < hours := by nlinarith
    rw [if_neg h1, if_neg (not_lt.2 h)]

/-- Witness for the amended C9 at the 100-second delta. -/
theorem formatter_adaptive_witness :
    get_formatted_time_error (100 / 3600) = TimeErrorDisplay.minutesFmt (100 / 3600 * 60) :=
  (formatter_adaptive (100 / 3600)).2.1 (by norm_num) (by norm_num)

/-! ## Claim C10: falsy offsets silently drop points -/

/-- C10: a timeline-path point whose `durationMinutesOffsetFromStartTime`
value is falsy - in particular the JSON number 0, a valid offset meaning
the point coincides with `startTime` - is silently dropped before any
parsing is attempted, and a point can only yield a record when both its
`point` string and its offset value are truthy. -/
theorem falsy_offset_drops_point (start_time : ℚ) (kvs : List (PyStr × Json)) :
    (truthy ((lookupKey kvs (strL "durationMinutesOffsetFromStartTime")).getD Json.null) =
        false →
      processPoint start_time (Json.obj kvs) = Except.ok none) ∧
    (∀ loc, processPoint start_time (Json.obj kvs) = Except.ok (some loc) →
      truthy ((lookupKey kvs (strL "point")).getD Json.null) = true ∧
      truthy ((lookupKey kvs (strL "durationMinutesOffsetFromStartTime")).getD Json.null) =
        true) := by
  constructor
  · intro hfalsy
    simp [processPoint, pyGetD, bind, Except.bind, hfalsy, pure, Except.pure]
  · intro loc h
    by_cases htp : truthy ((lookupKey kvs (strL "point")).getD Json.null) = true
    · by_cases hoff : truthy
          ((lookupKey kvs (strL "durationMinutesOffsetFromStartTime")).getD Json.null) = true
      · exact ⟨htp, hoff⟩
      · rw [Bool.not_eq_true] at hoff
        simp [processPoint, pyGetD, bind, Except.bind, hoff, pure, Except.pure] at h
    · rw [Bool.not_eq_true] at htp
      simp [processPoint, pyGetD, bind, Except.bind, htp, pure, Except.pure] at h

/-- Witness for C10: a well-formed point whose offset is the JSON number
0 yields no record. -/
theorem falsy_offset_drops_point_witness :
    processPoint 0 (Json.obj [(strL "point", Json.str (strL "geo:10.0,20.0")),
      (strL "durationMinutesOffsetFromStartTime", Json.num 0)]) = Except.ok none :=
  (falsy_offset_drops_point 0 _).1 (by decide)

end GoogleGeotag
